import Mathlib

/-!
Shallow embedding of the `doidownloader` full-text resolution engine
(modules `files.py`, `html.py`, `doidownloader.py`, `core.py`, `db.py`)
together with theorems settling the specification claims.
Bytes are modelled as lists of naturals (one per byte, ASCII range for the
string literals that appear in the source).
-/

namespace DoiDownloader

/-- Raw byte strings (Python `bytes`). -/
abbrev Bytes := List Nat

/-- Encode an ASCII string as bytes (codepoint per byte; all literals in the
source that reach byte comparisons are ASCII). -/
def strToBytes (s : String) : Bytes :=
  s.data.map (fun c => c.toNat)

/-- Source `files.file_types`: (extension, MIME type, Google-Scholar meta field). -/
def file_types : List (String × String × Option String) :=
  [ ("pdf", "application/pdf", some "citation_pdf_url"),
    ("xml", "application/xml", some "citation_xml_url"),
    ("xml", "text/xml", some "citation_xml_url"),
    ("html", "text/html", some "citation_full_html_url"),
    ("txt", "text/plain", none),
    ("epub", "application/epub+zip", none),
    ("json", "application/json", none),
    ("png", "image/png", none) ]

/-- The `extensions` dict built inside `determine_extension`
(`{mime_type: ext for ext, mime_type, _ in file_types}`); the MIME keys of
`file_types` are pairwise distinct, so first-match lookup on the list agrees
with the Python dict. -/
def extensionsLookup (mime : String) : Option String :=
  (file_types.find? (fun t => t.2.1 = mime)).map (fun t => t.1)

/-- Python `content_type.split(";")[0]`: everything before the first `;`. -/
def stripParams (s : String) : String :=
  String.mk (s.data.takeWhile (fun c => c ≠ ';'))

/-- The content-sniffing fallback inside `files.determine_extension`:
`content[:4] == b"%PDF"` marks `pdf`, `content.startswith(b"<article")`
marks `xml`, otherwise `"unknown"`. -/
def sniffBytes (content : Bytes) : String :=
  if content.take 4 = strToBytes "%PDF" then "pdf"
  else if List.isPrefixOf (strToBytes "<article") content then "xml"
  else "unknown"

/-- Source `files.determine_extension(content_type, content)`.  A `None` content
type raises `AttributeError` at `.split`, an unknown stripped type raises
`KeyError` at the dict lookup; both are caught and fall back to sniffing. -/
def determine_extension (content_type : Option String) (content : Bytes) : String :=
  match content_type with
  | none => sniffBytes content
  | some ct =>
    match extensionsLookup (stripParams ct) with
    | some ext => ext
    | none => sniffBytes content

/-- Python `str.strip()`: remove leading and trailing whitespace. -/
def pyStrip (s : String) : String :=
  String.mk (((s.data.dropWhile Char.isWhitespace).reverse.dropWhile
    Char.isWhitespace).reverse)

/-- Source `html._list2dict`: group `(name, value)` pairs into a multi-valued
mapping.  Python stores each field's values in a `set`, whose iteration
order is unspecified; the set is modelled as the insertion-ordered
deduplicated list of that field's values. -/
def _list2dict (pairs : List (String × String)) (key : String) : List String :=
  ((pairs.filter (fun p => p.1 = key)).map (fun p => p.2)).dedup

/-- The `meta_url_fields` table inside `html.fulltext_urls_from_meta`:
the three recognized fields with their file types, in priority order. -/
def meta_url_fields : List (String × String) :=
  [("citation_pdf_url", "pdf"), ("citation_xml_url", "xml"),
   ("citation_full_html_url", "html")]

/-- The inner loop over one field's URL set: skip blank URLs
(`fulltext_url.strip() == ""`), return the first non-blank one. -/
def firstNonBlank : List String → Option String
  | [] => none
  | u :: rest => if pyStrip u = "" then firstNonBlank rest else some u

/-- The outer loop of `html.fulltext_urls_from_meta` over the field table:
a field absent from the mapping or exhausted without a non-blank URL falls
through to the next field. -/
def fieldsScan (pairs : List (String × String)) :
    List (String × String) → Option (String × String)
  | [] => none
  | (field, ftype) :: rest =>
    match firstNonBlank (_list2dict pairs field) with
    | some u => some (u, ftype)
    | none => fieldsScan pairs rest

/-- Source `html.fulltext_urls_from_meta(data)`, applied to the decoded JSON pair
list (the function first runs `json.loads` and `_list2dict` on `data`). -/
def fulltext_urls_from_meta (pairs : List (String × String)) :
    Option (String × String) :=
  fieldsScan pairs meta_url_fields

/-- An `httpx.URL`, reduced to the parts the engine inspects: the host and
the remainder of the URL text. -/
structure Url where
  host : String
  rest : String
deriving DecidableEq

/-- Source `doidownloader.LookupResult`: url, error, status_code, content. -/
structure LookupResult where
  url : String
  error : Option String
  status_code : Option Nat
  content : Option Bytes
deriving DecidableEq

/-- Outcome of parsing one response as HTML: `AttributeError` from
`lxml` ("Not HTML page"), `lxml.etree.ParserError` ("Empty or unparseable
page"), or a parsed document summarized by its citation/Dublin-Core meta
pairs and its optional meta-refresh redirect target. -/
inductive ParseOutcome where
  | notHtml
  | unparseable
  | html (meta : List (String × String)) (redirect : Option Url)
deriving DecidableEq

/-- An `httpx.Response` as the engine consumes it: final URL after
redirects, status code, body, declared content type, the HTML parse
outcome, and the page's `a[href]` links. -/
structure HttpResponse where
  url : String
  status_code : Nat
  content : Bytes
  content_type : Option String
  parse : ParseOutcome
  links : List Url
deriving DecidableEq

/-- Result of `DOIDownloader.get(url)`: either a response, or an
`httpx.HTTPError` (transport failure, timeout, TLS failure, or the
`raise_for_status` error on a non-2xx status) carrying the request URL,
a message and, for `HTTPStatusError` only, a status code. -/
inductive FetchOutcome where
  | success (r : HttpResponse)
  | httpError (requestUrl : String) (msg : String) (status : Option Nat)
deriving DecidableEq

/-- Source `DOIDownloader.lookup_result_on_http_error(exception)`. -/
def lookup_result_on_http_error (requestUrl msg : String)
    (status : Option Nat) : LookupResult :=
  ⟨requestUrl, some ("HTTP error: " ++ msg), status, none⟩

/-- Contiguous-subsequence test on character lists. -/
def containsSeq (needle : List Char) : List Char → Bool
  | [] => needle.isEmpty
  | c :: t => needle.isPrefixOf (c :: t) || containsSeq needle t

/-- Python's `needle in hay` for strings: contiguous substring test. -/
def strContainsSub (hay needle : String) : Bool :=
  containsSeq needle.data hay.data

/-- Source `DOIDownloader.retrieve_fulltext(url, expected_ftype)` over an abstract
network environment.  On a kind mismatch the source returns `None`, except
on `sciencedirect.com` hosts where a single-link interim page is followed;
`fuel` bounds only that self-recursion (the source recurses unboundedly),
and every claim below is settled away from fuel exhaustion. -/
def retrieve_fulltext (env : Url → FetchOutcome) :
    Nat → Url → String → Option LookupResult
  | fuel, url, expected_ftype =>
    match env url with
    | .httpError u msg st => some (lookup_result_on_http_error u msg st)
    | .success r =>
      if determine_extension r.content_type r.content = expected_ftype then
        some ⟨r.url, none, some r.status_code, some r.content⟩
      else if strContainsSub url.host "sciencedirect.com" then
        match r.links with
        | [link] =>
          match fuel with
          | 0 => none
          | fuel' + 1 => retrieve_fulltext env fuel' link expected_ftype
        | _ => none
      else none

/-- Encoding `json.dumps` of a list of string pairs (tuples encode as JSON arrays;
string escaping is omitted — no claim exercises non-plain strings). -/
def jsonDumpPairs (pairs : List (String × String)) : Bytes :=
  strToBytes ("[" ++ String.intercalate ", "
    (pairs.map (fun p => "[\"" ++ p.1 ++ "\", \"" ++ p.2 ++ "\"]")) ++ "]")

/-- Source `DOIDownloader.metadata_from_url(url)` over an abstract network
environment; `fuel` bounds only the meta-refresh self-recursion. -/
def metadata_from_url (env : Url → FetchOutcome) :
    Nat → Url → Option LookupResult
  | fuel, url =>
    match env url with
    | .httpError u msg st => some (lookup_result_on_http_error u msg st)
    | .success r =>
      match r.parse with
      | .notHtml => some ⟨r.url, some "Not HTML page", some r.status_code, none⟩
      | .unparseable =>
        some ⟨r.url, some "Empty or unparseable page", some r.status_code, none⟩
      | .html meta redirect =>
        if meta = [] then
          match redirect with
          | some newUrl =>
            match fuel with
            | 0 => none
            | fuel' + 1 => metadata_from_url env fuel' newUrl
          | none => some ⟨r.url, none, some r.status_code, some (jsonDumpPairs meta)⟩
        else some ⟨r.url, none, some r.status_code, some (jsonDumpPairs meta)⟩

/-- Concrete response for exercising the kind-mismatch path: an HTML
"not found"-style page served with status 200 where a PDF was expected. -/
def mismatchResp : HttpResponse :=
  { url := "https://pub.example/landing", status_code := 200,
    content := strToBytes "<html>not found</html>",
    content_type := some "text/html",
    parse := .html [] none, links := [] }

/-- Environment in which every URL resolves to `mismatchResp`. -/
def mismatchEnv : Url → FetchOutcome := fun _ => .success mismatchResp

/-- The fetched URL for the kind-mismatch scenario (not a ScienceDirect
host). -/
def mismatchUrl : Url := ⟨"pub.example", "/doc.pdf"⟩

/-- Environment in which every URL fails with a connect timeout. -/
def timeoutEnv : Url → FetchOutcome :=
  fun u => .httpError ("https://" ++ u.host ++ u.rest) "Connect timeout" none

/-- A value bound into a sqlite statement parameter slot. -/
inductive SqlValue where
  | null
  | intVal (n : Nat)
  | textVal (s : String)
  | blobVal (b : Bytes)
  | timeVal (t : Nat)
deriving DecidableEq

/-- Optional text parameter (`None` binds as SQL `NULL`). -/
def optText : Option String → SqlValue
  | none => .null
  | some s => .textVal s

/-- Optional integer parameter. -/
def optInt : Option Nat → SqlValue
  | none => .null
  | some n => .intVal n

/-- Optional blob parameter. -/
def optBlob : Option Bytes → SqlValue
  | none => .null
  | some b => .blobVal b

/-- Source `LookupResult.as_tuple()`:
`(str(self.url), self.error, self.status_code, self.content)` — four
fields, no content type. -/
def LookupResult.as_tuple (r : LookupResult) : List SqlValue :=
  [.textVal r.url, optText r.error, optInt r.status_code, optBlob r.content]

/-- Column count of the `doi_fulltext` table created by
`db.prepare_tables`: doi, url, error, status_code, content, content_type,
last_change. -/
def doi_fulltext_columns : Nat := 7

/-- Placeholder count of the statement
`insert into doi_fulltext values (?, ?, ?, ?, ?, ?, ?)` in
`core.DownloadTask.save_fulltext`. -/
def save_fulltext_placeholders : Nat := 7

/-- The parameter tuple `(doi, *res, dt.datetime.now())` built by
`core.DownloadTask.save_fulltext` when `res` is the tuple a strategy
returns (`LookupResult.as_tuple()`). -/
def save_fulltext_params (doi : String) (res : LookupResult) (now : Nat) :
    List SqlValue :=
  SqlValue.textVal doi :: res.as_tuple ++ [SqlValue.timeVal now]

/-- sqlite errors the engine distinguishes: a duplicate primary key raises
`IntegrityError`; a parameter/placeholder count mismatch raises
`ProgrammingError`. -/
inductive SqlError where
  | integrityError
  | programmingError
deriving DecidableEq

/-- sqlite3 parameter binding: executing a statement whose placeholder
count differs from the number of supplied parameters raises
`sqlite3.ProgrammingError` (only `IntegrityError` is caught by the
caller). -/
def bindParams (placeholders : Nat) (params : List SqlValue) :
    Except SqlError (List SqlValue) :=
  if params.length = placeholders then .ok params else .error .programmingError

/-- Python errors observable in the embedded fragments. -/
inductive PyError where
  | typeError
  | nameError
  | keyError
deriving DecidableEq

/-- A Python runtime value as `core.save_fulltext` can observe one: `None`,
a strategy's result tuple, or an unawaited coroutine object. -/
inductive PyVal where
  | noneVal
  | tupleVal (fields : List SqlValue)
  | coroutineVal (name : String)
deriving DecidableEq

/-- Python truthiness of those values: `None` is falsy, a tuple is truthy
iff non-empty, a coroutine object is always truthy. -/
def PyVal.truthy : PyVal → Bool
  | .noneVal => false
  | .tupleVal fs => !fs.isEmpty
  | .coroutineVal _ => true

/-- An async strategy function (`strategies.py`): its name and the behavior
its body would have under `await` (doi to optional result tuple). -/
structure Strategy where
  name : String
  body : String → Option (List SqlValue)

/-- Calling an async function without `await` — as `core.save_fulltext`
does in `res = strat(doi, client)` — creates the coroutine object and does
not run the body. -/
def callNoAwait (s : Strategy) (_doi : String) : PyVal :=
  PyVal.coroutineVal s.name

/-- The `for strat in self.strategies` loop of `core.save_fulltext`: call
each strategy (without `await`), break as soon as `res is not None`.
Returns the names of the strategies called and the final binding of `res`
(`none` models `res` left unbound by an empty loop). -/
def strategyLoop (doi : String) : List Strategy → List String × Option PyVal
  | [] => ([], none)
  | s :: rest =>
    let res := callNoAwait s doi
    if res ≠ PyVal.noneVal then ([s.name], some res)
    else
      match strategyLoop doi rest with
      | (called, none) => (s.name :: called, some res)
      | (called, some r) => (s.name :: called, some r)

/-- Iterable unpacking `(*res)`: a tuple unpacks to its fields; unpacking
`None` or a coroutine object raises `TypeError`. -/
def pyUnpack : PyVal → Except PyError (List SqlValue)
  | .tupleVal fs => .ok fs
  | .noneVal => .error .typeError
  | .coroutineVal _ => .error .typeError

/-- Source `core.DownloadTask.save_fulltext(doi, client)`: run the strategy loop;
a falsy `res` is logged as "no fulltext" and dropped; otherwise the insert
parameters `(doi, *res, dt.datetime.now())` are built.  The called strategy
names are returned alongside the outcome. -/
def save_fulltext (strategies : List Strategy) (doi : String) (now : Nat) :
    List String × Except PyError (Option (List SqlValue)) :=
  match strategyLoop doi strategies with
  | (called, none) => (called, .error .nameError)
  | (called, some res) =>
    if !res.truthy then (called, .ok none)
    else
      match pyUnpack res with
      | .ok fields =>
        (called, .ok (some (SqlValue.textVal doi :: fields ++
          [SqlValue.timeVal now])))
      | .error e => (called, .error e)

/-- The four strategies of `strategies.py` in their module order, with
abstract awaited bodies. -/
def strategyChain (b1 b2 b3 b4 : String → Option (List SqlValue)) :
    List Strategy :=
  [⟨"direct_link", b1⟩, ⟨"html_meta", b2⟩, ⟨"url_templates", b3⟩,
    ⟨"unpaywall", b4⟩]

/-- The module-level crawl-delay state of `doidownloader.py`: the
`crawl_delays` dict seeded from the `robots.txt` file at import time, and
the leftover seed-loop variable `domain`, which after the loop holds the
LAST seed line's host (unbound when the file had no lines). -/
structure CrawlState where
  cache : List (String × Nat)
  lastSeedDomain : Option String
deriving DecidableEq

/-- Dict lookup `crawl_delays[host]` as an option. -/
def lookupCache (cache : List (String × Nat)) (host : String) : Option Nat :=
  (cache.find? (fun p => p.1 = host)).map (fun p => p.2)

/-- Dict assignment `crawl_delays[host] = d`. -/
def setCache (cache : List (String × Nat)) (host : String) (d : Nat) :
    List (String × Nat) :=
  match cache with
  | [] => [(host, d)]
  | p :: rest =>
    if p.1 = host then (host, d) :: rest else p :: setCache rest host d

/-- Outcome of `GET http://host/robots.txt` plus parsing: `none` models an
`httpx.HTTPError` (fetch failure or error status); `some parsed` a
retrieved file whose wildcard `Crawl-delay` directive is `parsed`. -/
abbrev RobotsEnv := String → Option (Option Nat)

/-- Python `int(rp.crawl_delay("*") or default_delay)`: a missing directive — and
a zero one, since `0 or d` is `d` — falls back to the default. -/
def effectiveDelay (parsed : Option Nat) (default_delay : Nat) : Nat :=
  match parsed with
  | none => default_delay
  | some d => if d = 0 then default_delay else d

/-- The delay `check_crawl_delay` computes on a discovery: the parsed
wildcard crawl delay, or the default on any fetch or parse failure. -/
def discoveredDelay (fetched : Option (Option Nat)) (default_delay : Nat) :
    Nat :=
  match fetched with
  | none => default_delay
  | some parsed => effectiveDelay parsed default_delay

/-- Source `DOIDownloader.check_crawl_delay(url, default_delay=1)`.  The source
assigns and returns `crawl_delays[domain]`, where `domain` is the stale
module-level seed-loop variable — not `url.host`: discovery for an uncached
host overwrites the last seed host's entry and the function always returns
the last seed host's current entry (`NameError` when the seed file was
empty, so `domain` was never bound). -/
def check_crawl_delay (robots : RobotsEnv) (st : CrawlState) (host : String)
    (default_delay : Nat) : Except PyError (Nat × CrawlState) :=
  match st.lastSeedDomain with
  | none => .error .nameError
  | some dom =>
    let newCache :=
      setCache st.cache dom (discoveredDelay (robots host) default_delay)
    let st' :=
      if (lookupCache st.cache host).isSome then st
      else { st with cache := newCache }
    match lookupCache st'.cache dom with
    | some d => .ok (d, st')
    | none => .error .keyError

/-- Import-time state for the C4 scenario: the seed file listed `a.com 1`
then `slow.com 30`, so `domain` is left at `"slow.com"`. -/
def seedStateC4 : CrawlState :=
  ⟨[("a.com", 1), ("slow.com", 30)], some "slow.com"⟩

/-- Robots environment for C4: `example.org` publishes a wildcard
crawl-delay of 2 seconds; every other host errors. -/
def robotsC4 : RobotsEnv :=
  fun h => if h = "example.org" then some (some 2) else none

/-- One politeness-gated request issued through `DOIDownloader.get`:
holding the URL's host lock, the task sleeps `slept` seconds (the value
`check_crawl_delay` returned) and then starts the request; the lock is
released once the response arrives at time `finish`. -/
structure ReqEvent where
  host : String
  slept : ℚ
  start : ℚ
  finish : ℚ

/-- The subtrace of requests to one host, in lock-acquisition order. -/
def hostEvents (tr : List ReqEvent) (h : String) : List ReqEvent :=
  tr.filter (fun e => e.host = h)

/-- Wall-clock well-formedness induced by `DOIDownloader.get`: a request
finishes no earlier than it starts, and since a host's lock holder sleeps
its delay before requesting and releases only after its response, each next
same-host request starts at least its slept delay after the previous
finish.  Different hosts are unconstrained. -/
def LockedTrace (tr : List ReqEvent) : Prop :=
  (∀ e ∈ tr, e.start ≤ e.finish) ∧
  ∀ h, List.Chain' (fun a b => a.finish + b.slept ≤ b.start)
    (hostEvents tr h)

/-- Import-time state for the C5 scenario: seed file `slow.com 30` then
`a.com 1`, leaving `domain = "a.com"`. -/
def seedStateC5 : CrawlState :=
  ⟨[("slow.com", 30), ("a.com", 1)], some "a.com"⟩

/-- Robots environment for C5 (never consulted: `slow.com` is cached). -/
def robotsC5 : RobotsEnv := fun _ => none

/-- Two consecutive requests to `slow.com`, each sleeping the 1-second
delay `check_crawl_delay` actually returns for that host. -/
def trC5 : List ReqEvent :=
  [⟨"slow.com", 1, 0, 1⟩, ⟨"slow.com", 1, 2, 3⟩]

/-- One row of the `doi_fulltext` table (schema of `db.prepare_tables`). -/
structure FulltextRow where
  doi : String
  url : String
  error : Option String
  status_code : Option Nat
  content : Option Bytes
  content_type : Option String
  last_change : Nat
deriving DecidableEq

/-- The `doi_fulltext` table, primary key `(doi, url)`, in insertion
order. -/
abbrev FulltextStore := List FulltextRow

/-- Number of rows carrying a given `(doi, url)` key. -/
def keyCount (s : FulltextStore) (d u : String) : Nat :=
  s.countP (fun q => decide (q.doi = d) && decide (q.url = u))

/-- A raw sqlite insert into `doi_fulltext`: a duplicate `(doi, url)`
primary key raises `sqlite3.IntegrityError`, otherwise the row is
appended. -/
def insertFulltext (s : FulltextStore) (r : FulltextRow) :
    Except SqlError FulltextStore :=
  if keyCount s r.doi r.url ≠ 0 then .error .integrityError
  else .ok (s ++ [r])

/-- The insert wrapped in the `except sqlite3.IntegrityError` handler of
`core.save_fulltext` and `doidownloader.save_fulltexts`: a duplicate-key
insert is logged and swallowed, leaving the store unchanged; only
`IntegrityError` is caught. -/
def insertFulltextCaught (s : FulltextStore) (r : FulltextRow) :
    Except SqlError FulltextStore :=
  match insertFulltext s r with
  | .ok s' => .ok s'
  | .error .integrityError => .ok s
  | .error e => .error e

/-- Modelled from the spec: `db.dois_with_fulltext`, called by
`core.DownloadTask.save_fulltexts` but absent from the sources; the Store's
`existing_dois()` operation — "DOIs already resolved" — i.e. the set of
DOIs having a row in `doi_fulltext`. -/
def dois_with_fulltext (s : FulltextStore) : List String :=
  (s.map (fun r => r.doi)).dedup

/-- The task-spawning loop of `core.DownloadTask.save_fulltexts`: a DOI in
`inserted_dois` is skipped (`continue`); every other DOI gets exactly one
resolution task. -/
def save_fulltexts_spawned (dois : List String) (s : FulltextStore) :
    List String :=
  dois.filter (fun d => !(dois_with_fulltext s).contains d)

/-- A concrete recorded row for the C7 witness. -/
def rowA : FulltextRow :=
  ⟨"10.1/x", "https://x/a.pdf", none, some 200, some (strToBytes "%PDF"),
    some "pdf", 5⟩

/-- A concrete fresh row for the C7 witness. -/
def rowB : FulltextRow :=
  ⟨"10.2/y", "https://y/b.pdf", none, some 200, some (strToBytes "%PDF"),
    some "pdf", 6⟩

theorem stripParams_no_semi (s : String) (h : ';' ∉ s.data) :
    stripParams s = s := by
  unfold stripParams
  rw [List.takeWhile_eq_self_iff.mpr]
  · intro c hc
    simp only [ne_eq, decide_eq_true_eq]
    intro hcs; exact h (hcs ▸ hc)

theorem takeWhile_append_semi (l t : List Char) (h : ';' ∉ l) :
    (l ++ ';' :: t).takeWhile (fun c => decide (c ≠ ';')) = l := by
  induction l with
  | nil => simp
  | cons c cs ih =>
    have hc : c ≠ ';' := fun hh => h (by simp [hh])
    have hcs : ';' ∉ cs := fun hh => h (by simp [hh])
    simp only [List.cons_append, List.takeWhile_cons]
    rw [if_pos (by simpa using hc), ih hcs]

theorem stripParams_append_semi (s t : String) (h : ';' ∉ s.data) :
    stripParams (s ++ ";" ++ t) = s := by
  unfold stripParams
  have hdata : (s ++ ";" ++ t).data = s.data ++ ';' :: t.data := by
    simp [String.data_append]
  rw [hdata, takeWhile_append_semi s.data t.data h]

theorem file_types_lookup :
    ∀ t ∈ file_types, extensionsLookup t.2.1 = some t.1 ∧ ';' ∉ t.2.1.data := by
  decide

/-- C8: for every media type in the static table, `determine_extension`
strips `;`-parameters and returns that type's documented kind; a missing or
unrecognized media type degrades to sniffing: leading `%PDF` bytes classify
as `pdf`, a `<article` start as `xml`, anything else as `unknown`. -/
theorem determine_extension_spec :
    (∀ ext mime gs, (ext, mime, gs) ∈ file_types →
      (∀ body, determine_extension (some mime) body = ext) ∧
      (∀ params body,
        determine_extension (some (mime ++ ";" ++ params)) body = ext)) ∧
    (∀ rest, determine_extension none (strToBytes "%PDF" ++ rest) = "pdf") ∧
    (∀ rest, determine_extension none (strToBytes "<article" ++ rest) = "xml") ∧
    (∀ ct body, extensionsLookup (stripParams ct) = none →
      determine_extension (some ct) body = sniffBytes body) ∧
    (∀ body, body.take 4 ≠ strToBytes "%PDF" →
      ¬ List.isPrefixOf (strToBytes "<article") body = true →
      sniffBytes body = "unknown") := by
  refine ⟨?_, ?_, ?_, ?_, ?_⟩
  · intro ext mime gs hmem
    have h1 : extensionsLookup mime = some ext :=
      (file_types_lookup (ext, mime, gs) hmem).1
    have h2 : ';' ∉ mime.data := (file_types_lookup (ext, mime, gs) hmem).2
    constructor
    · intro body
      show (match extensionsLookup (stripParams mime) with
            | some e => e
            | none => sniffBytes body) = ext
      rw [stripParams_no_semi mime h2, h1]
    · intro params body
      show (match extensionsLookup (stripParams (mime ++ ";" ++ params)) with
            | some e => e
            | none => sniffBytes body) = ext
      rw [stripParams_append_semi mime params h2, h1]
  · intro rest
    show sniffBytes (strToBytes "%PDF" ++ rest) = "pdf"
    unfold sniffBytes
    rw [if_pos]
    exact List.take_left (strToBytes "%PDF") rest
  · intro rest
    show sniffBytes (strToBytes "<article" ++ rest) = "xml"
    unfold sniffBytes
    rw [if_neg, if_pos]
    · simp [List.isPrefixOf_iff_prefix]
    · intro hcontra
      have htake : (strToBytes "<article" ++ rest).take 4 = strToBytes "<art" := by
        have h4 : (strToBytes "<article").take 4 = strToBytes "<art" := by decide
        rw [List.take_append_of_le_length (by decide), h4]
      rw [htake] at hcontra
      exact absurd hcontra (by decide)
  · intro ct body hmiss
    show (match extensionsLookup (stripParams ct) with
          | some e => e
          | none => sniffBytes body) = sniffBytes body
    rw [hmiss]
  · intro body hpdf harticle
    unfold sniffBytes
    rw [if_neg hpdf, if_neg (by simpa using harticle)]

/-- Witness for C8 at concrete inputs: a parameterized `text/html` media
type classifies as `html`, a `%PDF` body with no media type as `pdf`, and a
bogus media type over a random body as `unknown`. -/
theorem determine_extension_spec_witness :
    determine_extension (some ("text/html" ++ ";" ++ " charset=utf-8"))
      (strToBytes "random") = "html" ∧
    determine_extension none (strToBytes "%PDF" ++ strToBytes "-1.4 rest") = "pdf" ∧
    determine_extension none (strToBytes "<article" ++ strToBytes ">...") = "xml" ∧
    determine_extension (some "bogus/type") (strToBytes "random") = "unknown" := by
  refine ⟨?_, ?_, ?_, ?_⟩
  · exact (determine_extension_spec.1 "html" "text/html"
      (some "citation_full_html_url") (by decide)).2 " charset=utf-8" _
  · exact determine_extension_spec.2.1 (strToBytes "-1.4 rest")
  · exact determine_extension_spec.2.2.1 (strToBytes ">...")
  · rw [determine_extension_spec.2.2.2.1 "bogus/type" (strToBytes "random")
      (by decide)]
    exact determine_extension_spec.2.2.2.2 (strToBytes "random")
      (by decide) (by decide)

theorem fieldsScan_cons_some (pairs : List (String × String))
    (f ft u : String) (rest : List (String × String))
    (h : firstNonBlank (_list2dict pairs f) = some u) :
    fieldsScan pairs ((f, ft) :: rest) = some (u, ft) := by
  unfold fieldsScan
  rw [h]

theorem fieldsScan_cons_none (pairs : List (String × String))
    (f ft : String) (rest : List (String × String))
    (h : firstNonBlank (_list2dict pairs f) = none) :
    fieldsScan pairs ((f, ft) :: rest) = fieldsScan pairs rest := by
  conv_lhs => unfold fieldsScan
  rw [h]

theorem firstNonBlank_eq_none (l : List String) :
    firstNonBlank l = none ↔ ∀ u ∈ l, pyStrip u = "" := by
  induction l with
  | nil => simp [firstNonBlank]
  | cons u rest ih =>
    unfold firstNonBlank
    by_cases hu : pyStrip u = ""
    · rw [if_pos hu, ih]
      constructor
      · intro h v hv
        rcases List.mem_cons.mp hv with h1 | h2
        · exact h1 ▸ hu
        · exact h v h2
      · intro h v hv; exact h v (List.mem_cons_of_mem u hv)
    · rw [if_neg hu]
      constructor
      · intro h; exact absurd h (by simp)
      · intro h; exact absurd (h u (List.mem_cons_self u rest)) hu

theorem firstNonBlank_eq_some (l : List String) (u : String)
    (h : firstNonBlank l = some u) : u ∈ l ∧ pyStrip u ≠ "" := by
  induction l with
  | nil => simp [firstNonBlank] at h
  | cons v rest ih =>
    unfold firstNonBlank at h
    by_cases hv : pyStrip v = ""
    · rw [if_pos hv] at h
      obtain ⟨h1, h2⟩ := ih h
      exact ⟨List.mem_cons_of_mem v h1, h2⟩
    · rw [if_neg hv] at h
      obtain rfl : v = u := Option.some.inj h
      exact ⟨List.mem_cons_self v rest, hv⟩

theorem firstNonBlank_isSome (l : List String) (u : String)
    (hu : u ∈ l) (hb : pyStrip u ≠ "") : ∃ v, firstNonBlank l = some v := by
  cases h : firstNonBlank l with
  | none => exact absurd ((firstNonBlank_eq_none l).mp h u hu) hb
  | some v => exact ⟨v, rfl⟩

theorem mem_list2dict (pairs : List (String × String)) (f u : String) :
    u ∈ _list2dict pairs f ↔ (f, u) ∈ pairs := by
  unfold _list2dict
  rw [List.mem_dedup, List.mem_map]
  constructor
  · rintro ⟨⟨k, v⟩, hmem, rfl⟩
    obtain ⟨hp, hk⟩ := List.mem_filter.mp hmem
    have hkf : k = f := by simpa using hk
    exact hkf ▸ hp
  · intro h
    exact ⟨(f, u), List.mem_filter.mpr ⟨h, by simp⟩, rfl⟩

theorem list2dict_append_other (pairs : List (String × String))
    (f k v : String) (h : k ≠ f) :
    _list2dict (pairs ++ [(k, v)]) f = _list2dict pairs f := by
  unfold _list2dict
  rw [List.filter_append]
  have hnil : List.filter (fun p => decide (p.1 = f)) [(k, v)] = [] := by
    simp [h]
  rw [hnil, List.append_nil]

theorem fieldsScan_append_other (pairs : List (String × String))
    (k v : String) (fields : List (String × String))
    (h : ∀ fk ∈ fields, fk.1 ≠ k) :
    fieldsScan (pairs ++ [(k, v)]) fields = fieldsScan pairs fields := by
  induction fields with
  | nil => rfl
  | cons fk rest ih =>
    obtain ⟨f, ft⟩ := fk
    have hf : k ≠ f := fun he => (h (f, ft) (List.mem_cons_self _ _)) he.symm
    have hrest : ∀ fk ∈ rest, fk.1 ≠ k :=
      fun fk hfk => h fk (List.mem_cons_of_mem _ hfk)
    cases hfb : firstNonBlank (_list2dict pairs f) with
    | some u =>
      rw [fieldsScan_cons_some pairs f ft u rest hfb,
        fieldsScan_cons_some (pairs ++ [(k, v)]) f ft u rest
          (by rw [list2dict_append_other pairs f k v hf]; exact hfb)]
    | none =>
      rw [fieldsScan_cons_none pairs f ft rest hfb,
        fieldsScan_cons_none (pairs ++ [(k, v)]) f ft rest
          (by rw [list2dict_append_other pairs f k v hf]; exact hfb),
        ih hrest]

/-- C9: `fulltext_urls_from_meta` consults exactly `citation_pdf_url`
(kind `pdf`), `citation_xml_url` (kind `xml`) and `citation_full_html_url`
(kind `html`) in that priority order, skipping blank URLs, returning a
non-blank URL of the first field that has one together with its kind,
`none` when every candidate is absent or blank; `citation_fulltext_html_url`
entries never affect the result. -/
theorem fulltext_urls_from_meta_spec :
    (∀ pairs u, ("citation_pdf_url", u) ∈ pairs → pyStrip u ≠ "" →
      ∃ v, fulltext_urls_from_meta pairs = some (v, "pdf") ∧
        ("citation_pdf_url", v) ∈ pairs ∧ pyStrip v ≠ "") ∧
    (∀ pairs u, (∀ v, ("citation_pdf_url", v) ∈ pairs → pyStrip v = "") →
      ("citation_xml_url", u) ∈ pairs → pyStrip u ≠ "" →
      ∃ v, fulltext_urls_from_meta pairs = some (v, "xml") ∧
        ("citation_xml_url", v) ∈ pairs ∧ pyStrip v ≠ "") ∧
    (∀ pairs u, (∀ v, ("citation_pdf_url", v) ∈ pairs → pyStrip v = "") →
      (∀ v, ("citation_xml_url", v) ∈ pairs → pyStrip v = "") →
      ("citation_full_html_url", u) ∈ pairs → pyStrip u ≠ "" →
      ∃ v, fulltext_urls_from_meta pairs = some (v, "html") ∧
        ("citation_full_html_url", v) ∈ pairs ∧ pyStrip v ≠ "") ∧
    (∀ pairs, (∀ fk ∈ meta_url_fields, ∀ v, (fk.1, v) ∈ pairs → pyStrip v = "") →
      fulltext_urls_from_meta pairs = none) ∧
    (∀ pairs v,
      fulltext_urls_from_meta (pairs ++ [("citation_fulltext_html_url", v)]) =
        fulltext_urls_from_meta pairs) := by
  have hblank : ∀ pairs f, (∀ v, (f, v) ∈ pairs → pyStrip v = "") →
      firstNonBlank (_list2dict pairs f) = none := by
    intro pairs f h
    exact (firstNonBlank_eq_none _).mpr
      (fun u hu => h u ((mem_list2dict pairs f u).mp hu))
  refine ⟨?_, ?_, ?_, ?_, ?_⟩
  · intro pairs u hmem hne
    obtain ⟨v, hv⟩ := firstNonBlank_isSome _ u
      ((mem_list2dict pairs "citation_pdf_url" u).mpr hmem) hne
    obtain ⟨hvmem, hvne⟩ := firstNonBlank_eq_some _ v hv
    exact ⟨v, fieldsScan_cons_some pairs _ _ v _ hv,
      (mem_list2dict _ _ _).mp hvmem, hvne⟩
  · intro pairs u hpdf hmem hne
    obtain ⟨v, hv⟩ := firstNonBlank_isSome _ u
      ((mem_list2dict pairs "citation_xml_url" u).mpr hmem) hne
    obtain ⟨hvmem, hvne⟩ := firstNonBlank_eq_some _ v hv
    refine ⟨v, ?_, (mem_list2dict _ _ _).mp hvmem, hvne⟩
    show fieldsScan pairs meta_url_fields = some (v, "xml")
    unfold meta_url_fields
    rw [fieldsScan_cons_none pairs _ _ _ (hblank pairs _ hpdf),
      fieldsScan_cons_some pairs _ _ v _ hv]
  · intro pairs u hpdf hxml hmem hne
    obtain ⟨v, hv⟩ := firstNonBlank_isSome _ u
      ((mem_list2dict pairs "citation_full_html_url" u).mpr hmem) hne
    obtain ⟨hvmem, hvne⟩ := firstNonBlank_eq_some _ v hv
    refine ⟨v, ?_, (mem_list2dict _ _ _).mp hvmem, hvne⟩
    show fieldsScan pairs meta_url_fields = some (v, "html")
    unfold meta_url_fields
    rw [fieldsScan_cons_none pairs _ _ _ (hblank pairs _ hpdf),
      fieldsScan_cons_none pairs _ _ _ (hblank pairs _ hxml),
      fieldsScan_cons_some pairs _ _ v _ hv]
  · intro pairs hall
    show fieldsScan pairs meta_url_fields = none
    unfold meta_url_fields
    rw [fieldsScan_cons_none pairs _ _ _
        (hblank pairs _ (hall ("citation_pdf_url", "pdf") (by simp [meta_url_fields]))),
      fieldsScan_cons_none pairs _ _ _
        (hblank pairs _ (hall ("citation_xml_url", "xml") (by simp [meta_url_fields]))),
      fieldsScan_cons_none pairs _ _ _
        (hblank pairs _
          (hall ("citation_full_html_url", "html") (by simp [meta_url_fields])))]
    rfl
  · intro pairs v
    exact fieldsScan_append_other pairs _ v meta_url_fields (by decide)

/-- Witness for C9 at concrete metadata: a blank `citation_pdf_url` and a
real `citation_xml_url` yield the xml link, and a lone
`citation_fulltext_html_url` entry is ignored. -/
theorem fulltext_urls_from_meta_spec_witness :
    (∃ v, fulltext_urls_from_meta
        [("citation_pdf_url", "  "), ("citation_xml_url", "https://x/y.xml")] =
        some (v, "xml") ∧
      ("citation_xml_url", v) ∈
        [("citation_pdf_url", "  "), ("citation_xml_url", "https://x/y.xml")] ∧
      pyStrip v ≠ "") ∧
    fulltext_urls_from_meta [("citation_fulltext_html_url", "https://x/land")] =
      fulltext_urls_from_meta [] := by
  constructor
  · refine fulltext_urls_from_meta_spec.2.1 _ "https://x/y.xml" ?_ (by simp)
      (by decide)
    intro v hv
    simp only [List.mem_cons, List.not_mem_nil, or_false, Prod.mk.injEq] at hv
    rcases hv with ⟨_, rfl⟩ | ⟨h1, _⟩
    · decide
    · exact absurd h1 (by decide)
  · exact fulltext_urls_from_meta_spec.2.2.2.2 [] "https://x/land"

/-- C3 counterexample: a reached response whose classified kind (`html`)
differs from the expected kind (`pdf`) makes `retrieve_fulltext` return
`None` — no `LookupResult` carrying the content and an "unexpected file
type" error marker is returned. -/
theorem retrieve_fulltext_mismatch_counterexample :
    determine_extension mismatchResp.content_type mismatchResp.content = "html" ∧
    retrieve_fulltext mismatchEnv 1 mismatchUrl "pdf" = none ∧
    ¬ ∃ lr : LookupResult,
      retrieve_fulltext mismatchEnv 1 mismatchUrl "pdf" = some lr := by
  refine ⟨rfl, rfl, ?_⟩
  rintro ⟨lr, h⟩
  rw [show retrieve_fulltext mismatchEnv 1 mismatchUrl "pdf" = none from rfl] at h
  exact Option.noConfusion h

/-- C3 (amended): when the response is reached but the classified kind
differs from the expected kind, `retrieve_fulltext` discards the response
and returns `None` (a definite no-result, not an exception), except on
`sciencedirect.com` hosts where a single-link interim page is followed. -/
theorem retrieve_fulltext_mismatch_returns_none (env : Url → FetchOutcome)
    (fuel : Nat) (url : Url) (expected : String) (r : HttpResponse)
    (hr : env url = .success r)
    (hk : determine_extension r.content_type r.content ≠ expected)
    (hsd : strContainsSub url.host "sciencedirect.com" = false) :
    retrieve_fulltext env fuel url expected = none := by
  unfold retrieve_fulltext
  simp only [hr]
  rw [if_neg hk, if_neg (by simp [hsd])]

/-- Witness for C3's amended theorem at the concrete mismatch scenario. -/
theorem retrieve_fulltext_mismatch_returns_none_witness :
    retrieve_fulltext mismatchEnv 0 mismatchUrl "pdf" = none :=
  retrieve_fulltext_mismatch_returns_none mismatchEnv 0 mismatchUrl "pdf"
    mismatchResp rfl (by decide) rfl

/-- C6: a transport-level failure of the underlying `get` (connection
error, timeout, TLS failure, or non-2xx status raised after redirects —
all `httpx.HTTPError`s) is caught inside both fetch operations and
converted to a `LookupResult` whose error is the human-readable
`"HTTP error: ..."` classification and whose content is absent; no
exception propagates. -/
theorem fetch_transport_error_classified (env : Url → FetchOutcome)
    (fuel : Nat) (url : Url) (expected u msg : String) (st : Option Nat)
    (h : env url = .httpError u msg st) :
    retrieve_fulltext env fuel url expected =
      some (lookup_result_on_http_error u msg st) ∧
    metadata_from_url env fuel url =
      some (lookup_result_on_http_error u msg st) ∧
    (lookup_result_on_http_error u msg st).error =
      some ("HTTP error: " ++ msg) ∧
    (lookup_result_on_http_error u msg st).content = none := by
  refine ⟨?_, ?_, rfl, rfl⟩
  · unfold retrieve_fulltext
    simp only [h]
  · unfold metadata_from_url
    simp only [h]

/-- Witness for C6: the concrete timeout environment yields the classified
error result from both fetch operations. -/
theorem fetch_transport_error_classified_witness :
    retrieve_fulltext timeoutEnv 3 ⟨"doi.org", "/10.1/x"⟩ "pdf" =
      some (lookup_result_on_http_error "https://doi.org/10.1/x"
        "Connect timeout" none) ∧
    metadata_from_url timeoutEnv 3 ⟨"doi.org", "/10.1/x"⟩ =
      some (lookup_result_on_http_error "https://doi.org/10.1/x"
        "Connect timeout" none) := by
  have h := fetch_transport_error_classified timeoutEnv 3 ⟨"doi.org", "/10.1/x"⟩
    "pdf" "https://doi.org/10.1/x" "Connect timeout" none rfl
  exact ⟨h.1, h.2.1⟩

/-- C10: a page that parses as HTML but has no citation/Dublin-Core
metadata and no meta-refresh redirect yields a success `LookupResult`:
no error, the response's status code, and the JSON encoding `"[]"` of the
empty metadata list as content. -/
theorem metadata_from_url_no_meta_success (env : Url → FetchOutcome)
    (fuel : Nat) (url : Url) (r : HttpResponse)
    (hr : env url = .success r) (hp : r.parse = .html [] none) :
    metadata_from_url env fuel url =
      some ⟨r.url, none, some r.status_code, some (strToBytes "[]")⟩ := by
  unfold metadata_from_url
  simp only [hr, hp]
  rfl

/-- Witness for C10 at the concrete metadata-free HTML page. -/
theorem metadata_from_url_no_meta_success_witness :
    metadata_from_url mismatchEnv 2 ⟨"pub.example", "/landing"⟩ =
      some ⟨"https://pub.example/landing", none, some 200,
        some (strToBytes "[]")⟩ :=
  metadata_from_url_no_meta_success mismatchEnv 2 ⟨"pub.example", "/landing"⟩
    mismatchResp rfl rfl

/-- C1 (code bug): the record `core.save_fulltext` builds from a successful
strategy has only six values — doi, url, error, status_code, content,
timestamp, with no content-type field — against the seven-column
`doi_fulltext` layout, so binding it to the seven-placeholder insert
raises `sqlite3.ProgrammingError` instead of committing a seven-field
record. -/
theorem save_fulltext_record_arity (doi : String) (res : LookupResult)
    (now : Nat) :
    (save_fulltext_params doi res now).length = 6 ∧
    doi_fulltext_columns = 7 ∧
    bindParams save_fulltext_placeholders (save_fulltext_params doi res now) =
      .error .programmingError := by
  have hlen : (save_fulltext_params doi res now).length = 6 := by
    simp [save_fulltext_params, LookupResult.as_tuple]
  refine ⟨hlen, rfl, ?_⟩
  unfold bindParams
  rw [hlen, if_neg (by decide)]

/-- Witness for C1's theorem at a concrete successful strategy result. -/
theorem save_fulltext_record_arity_witness :
    bindParams save_fulltext_placeholders
      (save_fulltext_params "10.1234/example"
        ⟨"https://pub.example/paper.pdf", none, some 200,
          some (strToBytes "%PDF-1.4")⟩ 0) = .error .programmingError :=
  (save_fulltext_record_arity "10.1234/example"
    ⟨"https://pub.example/paper.pdf", none, some 200,
      some (strToBytes "%PDF-1.4")⟩ 0).2.2

/-- C2 (code bug): whatever the four strategies would return, the driver
calls only `direct_link` — and, because the call is not awaited, binds the
unrun coroutine object, breaks out of the loop immediately, and then raises
`TypeError` unpacking that coroutine into the insert parameters; no
strategy body ever runs and no first-success short-circuit happens. -/
theorem save_fulltext_strategy_loop_bug
    (b1 b2 b3 b4 : String → Option (List SqlValue)) (doi : String)
    (now : Nat) :
    (strategyLoop doi (strategyChain b1 b2 b3 b4)).2 =
      some (PyVal.coroutineVal "direct_link") ∧
    (save_fulltext (strategyChain b1 b2 b3 b4) doi now).1 = ["direct_link"] ∧
    (save_fulltext (strategyChain b1 b2 b3 b4) doi now).2 =
      .error .typeError := by
  exact ⟨rfl, rfl, rfl⟩

/-- Witness for C2's theorem with concrete strategy bodies, including a
`direct_link` body that would succeed if it were ever awaited. -/
theorem save_fulltext_strategy_loop_bug_witness :
    (save_fulltext (strategyChain
      (fun _ => some [SqlValue.textVal "https://pub.example/paper.pdf",
        SqlValue.null, SqlValue.intVal 200,
        SqlValue.blobVal (strToBytes "%PDF-1.4")])
      (fun _ => none) (fun _ => none) (fun _ => none))
      "10.1234/example" 0).2 = .error .typeError :=
  (save_fulltext_strategy_loop_bug
    (fun _ => some [SqlValue.textVal "https://pub.example/paper.pdf",
      SqlValue.null, SqlValue.intVal 200,
      SqlValue.blobVal (strToBytes "%PDF-1.4")])
    (fun _ => none) (fun _ => none) (fun _ => none)
    "10.1234/example" 0).2.2

/-- C4 (code bug): the first call for the uncached host `example.org`
fetches its robots delay (2) but stores it under the stale `domain`
(`slow.com`), overwriting `slow.com`'s seeded 30-second entry; the queried
host is still absent from the cache afterwards — so a later call for it
will fetch robots again — and the value returned is `crawl_delays[domain]`,
not an entry for `example.org`. -/
theorem check_crawl_delay_stale_domain_bug :
    check_crawl_delay robotsC4 seedStateC4 "example.org" 1 =
      .ok (2, ⟨[("a.com", 1), ("slow.com", 2)], some "slow.com"⟩) ∧
    lookupCache seedStateC4.cache "example.org" = none ∧
    lookupCache [("a.com", 1), ("slow.com", 2)] "example.org" = none ∧
    lookupCache seedStateC4.cache "slow.com" = some 30 ∧
    lookupCache [("a.com", 1), ("slow.com", 2)] "slow.com" = some 2 ∧
    check_crawl_delay robotsC4 ⟨[], none⟩ "example.org" 1 =
      .error .nameError := by
  exact ⟨rfl, rfl, rfl, rfl, rfl, rfl⟩

theorem chain_start_gap (d : ℚ) :
    ∀ l : List ReqEvent, (∀ e ∈ l, e.start ≤ e.finish) →
    (∀ e ∈ l, d ≤ e.slept) →
    List.Chain' (fun a b => a.finish + b.slept ≤ b.start) l →
    List.Chain' (fun a b => a.start + d ≤ b.start) l := by
  intro l
  induction l with
  | nil => intro _ _ _; exact List.chain'_nil
  | cons a rest ih =>
    intro hse hd hchain
    cases rest with
    | nil => simp
    | cons b rest' =>
      rw [List.chain'_cons] at hchain ⊢
      refine ⟨?_, ih (fun e he => hse e (List.mem_cons_of_mem a he))
        (fun e he => hd e (List.mem_cons_of_mem a he)) hchain.2⟩
      have h1 : a.start ≤ a.finish := hse a (List.mem_cons_self a _)
      have h2 : d ≤ b.slept :=
        hd b (List.mem_cons_of_mem a (List.mem_cons_self b _))
      have h3 : a.finish + b.slept ≤ b.start := hchain.1
      linarith

/-- Consecutive request starts to one host are spaced by at least `d`
whenever every request to that host slept at least `d`. -/
theorem lockedTrace_start_gap (tr : List ReqEvent) (h : String) (d : ℚ)
    (htr : LockedTrace tr) (hd : ∀ e ∈ hostEvents tr h, d ≤ e.slept) :
    List.Chain' (fun a b => a.start + d ≤ b.start) (hostEvents tr h) :=
  chain_start_gap d (hostEvents tr h)
    (fun e he => htr.1 e (List.mem_of_mem_filter he)) hd (htr.2 h)

/-- C5 (code bug): `check_crawl_delay` returns 1 — `crawl_delays[domain]`,
the last seed host `a.com`'s delay — for `slow.com`, whose own discovered
delay is 30; the resulting trace respects the lock-and-sleep discipline of
`get` yet its two `slow.com` requests start 2 seconds apart, violating the
claimed `>= 30`-second spacing. -/
theorem politeness_gap_violated :
    check_crawl_delay robotsC5 seedStateC5 "slow.com" 1 =
      .ok (1, seedStateC5) ∧
    lookupCache seedStateC5.cache "slow.com" = some 30 ∧
    LockedTrace trC5 ∧
    hostEvents trC5 "slow.com" = trC5 ∧
    ¬ List.Chain' (fun a b => a.start + (30 : ℚ) ≤ b.start)
      (hostEvents trC5 "slow.com") := by
  have hfilter : hostEvents trC5 "slow.com" = trC5 := rfl
  refine ⟨rfl, rfl, ⟨?_, ?_⟩, hfilter, ?_⟩
  · intro e he
    rcases List.mem_cons.mp he with rfl | he'
    · norm_num
    · rcases List.mem_cons.mp he' with rfl | he''
      · norm_num
      · exact absurd he'' (List.not_mem_nil e)
  · intro h
    by_cases hh : ("slow.com" : String) = h
    · subst hh
      rw [hfilter]
      unfold trC5
      rw [List.chain'_cons]
      refine ⟨by norm_num, List.chain'_singleton _⟩
    · have hempty : hostEvents trC5 h = [] := by
        simp only [hostEvents, trC5, List.filter, decide_eq_false hh]
      rw [hempty]
      exact List.chain'_nil
  · intro hch
    rw [hfilter] at hch
    unfold trC5 at hch
    rw [List.chain'_cons] at hch
    have h30 := hch.1
    norm_num at h30

/-- C7: inserting a record whose `(doi, url)` key is already present is
swallowed as a benign duplicate — no error escapes, the store is unchanged,
exactly one row with that key remains — and a resumed batch spawns no task
for a DOI already recorded in the store. -/
theorem persistence_idempotent (s : FulltextStore) (r : FulltextRow)
    (dois : List String) (d : String)
    (hfresh : keyCount s r.doi r.url = 0)
    (hd : d ∈ dois_with_fulltext s) :
    insertFulltextCaught s r = .ok (s ++ [r]) ∧
    keyCount (s ++ [r]) r.doi r.url = 1 ∧
    insertFulltext (s ++ [r]) r = .error .integrityError ∧
    insertFulltextCaught (s ++ [r]) r = .ok (s ++ [r]) ∧
    d ∉ save_fulltexts_spawned dois s := by
  have hcount : keyCount (s ++ [r]) r.doi r.url = 1 := by
    unfold keyCount at hfresh ⊢
    rw [List.countP_append, hfresh]
    simp
  refine ⟨?_, hcount, ?_, ?_, ?_⟩
  · unfold insertFulltextCaught insertFulltext
    rw [if_neg (by simp [hfresh])]
  · unfold insertFulltext
    rw [if_pos (by simp [hcount])]
  · unfold insertFulltextCaught insertFulltext
    rw [if_pos (by simp [hcount])]
  · intro hmem
    have := (List.mem_filter.mp hmem).2
    rw [Bool.not_eq_true', List.contains_eq_any_beq] at this
    have hany : (dois_with_fulltext s).any (fun x => d == x) = true := by
      rw [List.any_eq_true]
      exact ⟨d, hd, by simp⟩
    rw [hany] at this
    exact Bool.noConfusion this

/-- Witness for C7: a concrete duplicate insert is swallowed with the store
unchanged, and a recorded DOI spawns no task on resume. -/
theorem persistence_idempotent_witness :
    insertFulltextCaught [rowA] rowB = .ok [rowA, rowB] ∧
    insertFulltextCaught [rowA, rowB] rowB = .ok [rowA, rowB] ∧
    "10.1/x" ∉ save_fulltexts_spawned ["10.1/x", "10.2/y"] [rowA] := by
  have h := persistence_idempotent [rowA] rowB ["10.1/x", "10.2/y"] "10.1/x"
    (by decide) (by decide)
  exact ⟨h.1, h.2.2.2.1, h.2.2.2.2⟩

end DoiDownloader

